import Mathlib

/-
Verification of the process-supervisor daemon in daemon_tool.py.

The Python program keeps an in-memory table of process records
(ProcessManager.processes, a dict from string id to a dict of fields),
spawns and signals OS processes, answers requests over a unix socket
(DaemonServer._process_request), and has a client (DaemonClient).

Shallow embedding conventions:
- The process table is an association list in insertion order, mirroring
  the Python dict.  Keys are unique in every reachable state; theorems
  that need this take a Nodup hypothesis.
- The OS is a World value: `poll` maps a pid to `some exitCode` once the
  process has exited (subprocess.Popen.poll), `spawn` is the outcome of
  subprocess.Popen in start_process, `sigOutcome` is the outcome of the
  try-block that signals the process group in stop_process, and `now` is
  datetime.now().isoformat().
- The filesystem the log files live on is an association list from path
  to file content.
-/

namespace DaemonTool

/-- Status values stored in the `status` field of a process record:
the strings "running", "stopped", "finished" in the Python source. -/
inductive PStatus where
| running
| stopped
| finished
deriving DecidableEq

/-- One entry of ProcessManager.processes.  The stored dict has keys
`process` (modelled by the pid polled through the World), `command`,
`started_at`, `log_file`, `working_dir` and `status`.  Note that the
stored dict never carries an `exit_code` key: get_process_status adds it
only to the copy it returns. -/
structure ProcRecord where
  pid : Nat
  command : String
  startedAt : String
  logFile : String
  workingDir : Option String
  status : PStatus
deriving DecidableEq

/-- Lookup in the association-list model of the Python dict (first entry
with the given key, as keys are unique in every reachable dict). -/
def tblLookup (t : List (String × ProcRecord)) (k : String) : Option ProcRecord :=
  match t with
  | [] => none
  | p :: rest => if p.1 = k then some p.2 else tblLookup rest k

/-- Membership test, modelling `proc_id in self.processes`. -/
def tblMember (t : List (String × ProcRecord)) (k : String) : Bool :=
  (tblLookup t k).isSome

/-- Keyed in-place update, modelling assignment to a field of the stored
dict (for example `proc_info['status'] = 'stopped'`). -/
def tblUpdate (t : List (String × ProcRecord)) (k : String)
    (f : ProcRecord → ProcRecord) : List (String × ProcRecord) :=
  t.map (fun p => if p.1 = k then (p.1, f p.2) else p)

/-- Deletion by key, modelling `del self.processes[proc_id]`. -/
def delKey (t : List (String × ProcRecord)) (k : String) : List (String × ProcRecord) :=
  t.filter (fun p => decide (p.1 ≠ k))

/-- Read a file from the filesystem model (none when the path is absent,
modelling a missing log file). -/
def fsRead (fs : List (String × String)) (k : String) : Option String :=
  match fs with
  | [] => none
  | p :: rest => if p.1 = k then some p.2 else fsRead rest k

/-- Write a whole file, modelling `open(path, mode)` followed by the
writes the OS performs: the path maps to the given content afterwards. -/
def fsWrite (fs : List (String × String)) (k v : String) : List (String × String) :=
  if (fsRead fs k).isSome then fs.map (fun p => if p.1 = k then (k, v) else p)
  else fs ++ [(k, v)]

/-- Outcome of the try-block of stop_process that signals the process
group: it either completes normally, raises ProcessLookupError (the group
has vanished), or raises some other exception such as PermissionError. -/
inductive StopOutcome where
| ok
| lookupError
| otherError
deriving DecidableEq

/-- The OS environment one operation runs against. -/
structure World where
  poll : Nat → Option Int
  spawn : Except String Nat
  sigOutcome : StopOutcome
  now : String

/-- State of a ProcessManager: the processes dict and the _next_id
counter, plus the log directory the manager was built with. -/
structure MState where
  processes : List (String × ProcRecord)
  nextId : Nat
  logDir : String
deriving DecidableEq

/-- Process-id generation at the top of start_process:
`proc_id = name if name else f"proc_{self._next_id}"`.  A `name` that is
None or the empty string (falsy in Python) yields the generated id. -/
def genProcId (name : Option String) (nextId : Nat) : String :=
  match name with
  | some n => if n = "" then "proc_" ++ toString nextId else n
  | none => "proc_" ++ toString nextId

/-- Arguments of the subprocess.Popen call made by start_process:
stdout is the opened log file, stderr is merged into stdout
(subprocess.STDOUT), cwd is the working directory, and
`preexec_fn=os.setsid` starts a new session/process group. -/
structure PopenCall where
  command : String
  stdoutFile : String
  stderrToStdout : Bool
  cwd : Option String
  startNewSession : Bool
deriving DecidableEq

/-- ProcessManager.start_process (daemon_tool.py lines 53-98).
Steps, in source order: compute proc_id, increment _next_id
(unconditionally, before the duplicate check), raise ValueError on a
duplicate id, open the log file with mode "w" (creating it, or
truncating an existing file, before the child is spawned), call
subprocess.Popen, and on success insert the new record with status
"running".  A spawn failure propagates after the file was opened and the
counter bumped; no record is inserted.  The returned PopenCall is the
Popen invocation made (none when no Popen call happened). -/
def start_process (w : World) (st : MState) (fs : List (String × String))
    (command : String) (name : Option String) (workingDir : Option String) :
    Except String String × MState × List (String × String) × Option PopenCall :=
  let procId := genProcId name st.nextId
  let st1 : MState := { st with nextId := st.nextId + 1 }
  if tblMember st1.processes procId then
    (Except.error ("Process '" ++ procId ++ "' already exists"), st1, fs, none)
  else
    let logFile := st.logDir ++ "/" ++ procId ++ ".log"
    let fs1 := fsWrite fs logFile ""
    let call : PopenCall :=
      { command := command, stdoutFile := logFile, stderrToStdout := true,
        cwd := workingDir, startNewSession := true }
    match w.spawn with
    | Except.error e => (Except.error e, st1, fs1, some call)
    | Except.ok pid =>
      let newRec : ProcRecord :=
        { pid := pid, command := command, startedAt := w.now, logFile := logFile,
          workingDir := workingDir, status := PStatus.running }
      let st2 : MState := { st1 with processes := st1.processes ++ [(procId, newRec)] }
      (Except.ok procId, st2, fs1, some call)

/-- In-place assignment of the status field of the stored dict at the
given id, as done by `proc_info['status'] = ...` in stop_process. -/
def setStatus (st : MState) (procId : String) (s : PStatus) : MState :=
  { st with processes := tblUpdate st.processes procId (fun q => { q with status := s }) }

/-- ProcessManager.stop_process (daemon_tool.py lines 100-139).
Unknown id: return False.  If poll() shows the process already exited:
set status "finished", return True, no signal.  Otherwise signal the
process group (SIGKILL when force, else SIGTERM, a bounded wait, and an
escalation SIGKILL on timeout); when the try-block completes set status
"stopped" and return True; on ProcessLookupError set "finished" and
return True; on any other exception return False with the record
untouched. -/
def stop_process (w : World) (st : MState) (procId : String) (force : Bool) :
    Bool × MState :=
  match tblLookup st.processes procId with
  | none => (false, st)
  | some r =>
    if (w.poll r.pid).isSome then
      (true, setStatus st procId PStatus.finished)
    else
      match w.sigOutcome with
      | StopOutcome.ok => (true, setStatus st procId PStatus.stopped)
      | StopOutcome.lookupError => (true, setStatus st procId PStatus.finished)
      | StopOutcome.otherError => (false, st)

/-- The view of a record that get_process_status returns: the copied dict
with the `process` key removed and, only when poll() shows an exit, the
refreshed status and an `exit_code` key. -/
structure ProcView where
  command : String
  startedAt : String
  logFile : String
  workingDir : Option String
  status : PStatus
  exitCode : Option Int
deriving DecidableEq

/-- Construction of the returned view for one record, as done on the
`.copy()` of the stored dict: when poll() is not None the copy gets
status "finished" and the exit code; otherwise the copy carries the
stored status and no exit_code key. -/
def recordView (w : World) (r : ProcRecord) : ProcView :=
  match w.poll r.pid with
  | some code =>
    { command := r.command, startedAt := r.startedAt, logFile := r.logFile,
      workingDir := r.workingDir, status := PStatus.finished, exitCode := some code }
  | none =>
    { command := r.command, startedAt := r.startedAt, logFile := r.logFile,
      workingDir := r.workingDir, status := r.status, exitCode := none }

/-- ProcessManager.get_process_status (daemon_tool.py lines 141-175).
`if proc_id:` is a truthiness test, so None and the empty string both
take the all-processes branch.  Every view is built on a `.copy()` of
the stored dict and the method never assigns to self.processes or to a
stored dict, so the manager state component of the result is the input
state unchanged. -/
def get_process_status (w : World) (st : MState) (procId : Option String) :
    List (String × ProcView) × MState :=
  let views :=
    match procId with
    | some p =>
      if p = "" then st.processes.map (fun q => (q.1, recordView w q.2))
      else
        match tblLookup st.processes p with
        | none => []
        | some r => [(p, recordView w r)]
    | none => st.processes.map (fun q => (q.1, recordView w q.2))
  (views, st)

/-- Python str.rstrip() whitespace set: space, tab, newline, carriage
return, vertical tab, form feed. -/
def isPyWhitespace (c : Char) : Bool :=
  c = ' ' || c = '\t' || c = '\n' || c = '\r' || c = '\x0b' || c = '\x0c'

/-- Python line.rstrip() with no argument: remove every trailing
whitespace character, not only the line terminator. -/
def pyRstrip (s : String) : String :=
  String.mk ((s.data.reverse.dropWhile isPyWhitespace).reverse)

/-- Helper of readlines: split a character list into lines, each keeping
its trailing newline, the final line possibly without one. -/
def readlinesAux : List Char → List Char → List String
  | [], [] => []
  | [], acc => [String.mk acc.reverse]
  | c :: rest, acc =>
    if c = '\n' then String.mk (c :: acc).reverse :: readlinesAux rest []
    else readlinesAux rest (c :: acc)

/-- Python file.readlines() on text-mode content (universal newlines
already translated to a single newline character). -/
def readlines (s : String) : List String :=
  readlinesAux s.data []

/-- Python negative-index slice `all_lines[-lines:]` for a natural count:
with lines = 0 the slice is `all_lines[0:]`, the whole list; otherwise it
is the last `min lines length` elements. -/
def pyTail (xs : List String) (n : Nat) : List String :=
  if n = 0 then xs else xs.drop (xs.length - n)

/-- ProcessManager.get_process_log (daemon_tool.py lines 177-192).
Unknown id or missing file: empty list.  Otherwise read the whole file,
keep the slice `all_lines[-lines:]` and rstrip each line.  (The except
branch for an OS read error is outside the model: fsRead is total.) -/
def get_process_log (st : MState) (fs : List (String × String))
    (procId : String) (lines : Nat) : List String :=
  match tblLookup st.processes procId with
  | none => []
  | some r =>
    match fsRead fs r.logFile with
    | none => []
    | some content => (pyTail (readlines content) lines).map pyRstrip

/-- ProcessManager.cleanup_finished (daemon_tool.py lines 194-205):
collect the ids whose poll() is not None, delete each collected id from
the dict, and return how many were collected. -/
def cleanup_finished (w : World) (st : MState) : Nat × MState :=
  let toRemove := (st.processes.filter (fun p => (w.poll p.2.pid).isSome)).map Prod.fst
  let remaining := List.foldl (fun acc k => delKey acc k) st.processes toRemove
  (toRemove.length, { st with processes := remaining })

/-- One table-mutating or table-reading operation of the manager, for
stating invariants over operation sequences. -/
inductive Op where
| startOp (command : String) (name : Option String) (workingDir : Option String)
| stopOp (procId : String) (force : Bool)
| statusOp (procId : Option String)
| logOp (procId : String) (lines : Nat)
| cleanupOp

/-- The manager state and filesystem after one operation, discarding the
operation result (get_process_log never mutates either). -/
def applyOp (w : World) (st : MState) (fs : List (String × String)) (op : Op) :
    MState × List (String × String) :=
  match op with
  | Op.startOp c n wd => ((start_process w st fs c n wd).2.1, (start_process w st fs c n wd).2.2.1)
  | Op.stopOp p f => ((stop_process w st p f).2, fs)
  | Op.statusOp p => ((get_process_status w st p).2, fs)
  | Op.logOp _ _ => (st, fs)
  | Op.cleanupOp => ((cleanup_finished w st).2, fs)

/-- Ordering of the three statuses along the lifecycle
running, then stopped, then finished. -/
def statusRank : PStatus → Nat
  | PStatus.running => 0
  | PStatus.stopped => 1
  | PStatus.finished => 2

/-- A request as decoded from the JSON object: each field is the result
of request.get for the corresponding key (none when the key is absent or
null). -/
structure Request where
  action : Option String
  command : Option String
  name : Option String
  workingDir : Option String
  processId : Option String
  force : Option Bool
  lines : Option Nat

/-- Shape of the possible result fields of a success response, one
constructor per action. -/
inductive Payload where
| empty
| processId (s : String)
| processes (l : List (String × ProcView))
| logLines (l : List String)
| removed (n : Nat)
| message (s : String)
deriving DecidableEq

/-- A response object: the optional `success` field, the optional
`error` field, and the remaining result fields. -/
structure Resp where
  success : Option Bool
  error : Option String
  payload : Payload
deriving DecidableEq

/-- Python truthiness of an optional string: None and the empty string
are falsy. -/
def truthyS (o : Option String) : Bool :=
  match o with
  | some s => s != ""
  | none => false

/-- Rendering of the action in the unknown-action message: Python
formats the None object as the text "None". -/
def actionString : Option String → String
  | some s => s
  | none => "None"

/-- DaemonServer._process_request (daemon_tool.py lines 283-336): the
if/elif dispatch on request.get('action'), the required-field checks
(Python truthiness), the per-action success responses, and the outer
except that turns any exception raised by an operation (for start: the
duplicate-id ValueError or the spawn failure) into an error response.
Note the stop branch returns the raw dict with the boolean from
stop_process as the value of the success key. -/
def process_request (w : World) (st : MState) (fs : List (String × String))
    (req : Request) : Resp × MState × List (String × String) :=
  if req.action = some "start" then
    if truthyS req.command = false then
      ({ success := none, error := some "Command required", payload := Payload.empty }, st, fs)
    else
      match start_process w st fs (req.command.getD "") req.name req.workingDir with
      | (Except.ok procId, st2, fs2, _) =>
        ({ success := some true, error := none, payload := Payload.processId procId }, st2, fs2)
      | (Except.error e, st2, fs2, _) =>
        ({ success := none, error := some e, payload := Payload.empty }, st2, fs2)
  else if req.action = some "stop" then
    if truthyS req.processId = false then
      ({ success := none, error := some "Process ID required", payload := Payload.empty }, st, fs)
    else
      let r := stop_process w st (req.processId.getD "") (req.force.getD false)
      ({ success := some r.1, error := none, payload := Payload.empty }, r.2, fs)
  else if req.action = some "status" then
    let r := get_process_status w st req.processId
    ({ success := some true, error := none, payload := Payload.processes r.1 }, r.2, fs)
  else if req.action = some "log" then
    if truthyS req.processId = false then
      ({ success := none, error := some "Process ID required", payload := Payload.empty }, st, fs)
    else
      let l := get_process_log st fs (req.processId.getD "") (req.lines.getD 50)
      ({ success := some true, error := none, payload := Payload.logLines l }, st, fs)
  else if req.action = some "cleanup" then
    let r := cleanup_finished w st
    ({ success := some true, error := none, payload := Payload.removed r.1 }, r.2, fs)
  else if req.action = some "ping" then
    ({ success := some true, error := none, payload := Payload.message "pong" }, st, fs)
  else
    ({ success := none, error := some ("Unknown action: " ++ actionString req.action),
       payload := Payload.empty }, st, fs)

/-- Outcome of the socket I/O a single DaemonClient._send_request call
performs: either the whole connect/send/recv sequence succeeded and
produced a raw response, or some step raised.  A missing socket path
raises FileNotFoundError; a stale socket file that refuses the
connection raises ConnectionRefusedError, which is not a
FileNotFoundError, so it lands in the generic handler. -/
inductive ConnAttempt where
| ok (raw : String)
| excFileNotFound (msg : String)
| excConnRefused (msg : String)
| excOtherExc (msg : String)

/-- Result of DaemonClient._send_request as seen by the caller. -/
inductive ClientResult where
| response (raw : String)
| errorResp (msg : String)
deriving DecidableEq

/-- DaemonClient._send_request (daemon_tool.py lines 357-377): on
success return the decoded response; `except FileNotFoundError` yields
the error object with message "Daemon not running"; every other
exception (ConnectionRefusedError included) yields an error object
carrying str(e). -/
def sendRequest : ConnAttempt → ClientResult
  | ConnAttempt.ok raw => ClientResult.response raw
  | ConnAttempt.excFileNotFound _ => ClientResult.errorResp "Daemon not running"
  | ConnAttempt.excConnRefused msg => ClientResult.errorResp msg
  | ConnAttempt.excOtherExc msg => ClientResult.errorResp msg

/-- Events in the body of a manager method, used to record which part of
the body runs inside the `with self._lock` block. -/
inductive Ev where
| lockAcquire
| lockRelease
| tableAccess
| openLogFile
| spawnChild
| signalGroup
| graceWait
deriving DecidableEq

/-- Event trace of start_process (daemon_tool.py lines 53-98): the
`with self._lock` block spans the whole body, so the duplicate check,
the open of the log file, the subprocess.Popen call and the insertion of
the record all happen with the lock held. -/
def startProcessTrace : List Ev :=
  [Ev.lockAcquire, Ev.tableAccess, Ev.openLogFile, Ev.spawnChild, Ev.tableAccess, Ev.lockRelease]

/-- Event trace of stop_process (daemon_tool.py lines 100-139) by branch:
already-exited check, the force kill, or the graceful path with
`proc.wait(timeout=5)` and the escalation kill on timeout.  The
`with self._lock` block spans the whole body in every branch. -/
def stopProcessTrace (force alreadyExited timedOut : Bool) : List Ev :=
  if alreadyExited then
    [Ev.lockAcquire, Ev.tableAccess, Ev.tableAccess, Ev.lockRelease]
  else if force then
    [Ev.lockAcquire, Ev.tableAccess, Ev.signalGroup, Ev.tableAccess, Ev.lockRelease]
  else if timedOut then
    [Ev.lockAcquire, Ev.tableAccess, Ev.signalGroup, Ev.graceWait, Ev.signalGroup,
     Ev.tableAccess, Ev.lockRelease]
  else
    [Ev.lockAcquire, Ev.tableAccess, Ev.signalGroup, Ev.graceWait, Ev.tableAccess, Ev.lockRelease]

/-- The events of a trace that happen while the lock is held: everything
strictly between the acquire and the release. -/
def underLock (tr : List Ev) : List Ev :=
  ((tr.dropWhile (fun e => decide (e ≠ Ev.lockAcquire))).drop 1).takeWhile
    (fun e => decide (e ≠ Ev.lockRelease))

/-- Lookup distributes over append: a key found in the front part is
unaffected by entries appended behind it. -/
theorem tblLookup_append_of_some (t l : List (String × ProcRecord)) (id : String)
    (v : ProcRecord) (h : tblLookup t id = some v) : tblLookup (t ++ l) id = some v := by
  induction t with
  | nil => simp [tblLookup] at h
  | cons a rest ih =>
    by_cases ha : a.1 = id
    · simp only [tblLookup, ha, if_pos rfl] at h
      simpa [tblLookup, ha] using h
    · simp only [tblLookup, ha, if_neg, if_false] at h
      simpa [tblLookup, ha] using ih h

/-- Lookup after a keyed update: the updated key sees the function
applied to its old value, every other key is unchanged. -/
theorem tblLookup_tblUpdate (t : List (String × ProcRecord)) (k id : String)
    (f : ProcRecord → ProcRecord) :
    tblLookup (tblUpdate t k f) id =
      if id = k then (tblLookup t id).map f else tblLookup t id := by
  induction t with
  | nil => simp [tblUpdate, tblLookup]
  | cons a rest ih =>
    simp only [tblUpdate, List.map_cons] at *
    by_cases hak : a.1 = k
    · by_cases hid : a.1 = id
      · simp [tblLookup, hak, hid, hid ▸ hak]
      · have hik : ¬ id = k := fun h => hid (h ▸ hak)
        have hki : ¬ k = id := fun h => hik h.symm
        simp [tblLookup, hak, hid, hik, hki, ih]
    · by_cases hid : a.1 = id
      · have : ¬ id = k := fun h => hak (hid.trans h)
        simp [tblLookup, hak, hid, this]
      · simp [tblLookup, hak, hid, ih]

/-- A successful lookup means the key occurs among the keys. -/
theorem tblLookup_mem_keys (t : List (String × ProcRecord)) (id : String)
    (v : ProcRecord) (h : tblLookup t id = some v) : id ∈ t.map Prod.fst := by
  induction t with
  | nil => simp [tblLookup] at h
  | cons a rest ih =>
    by_cases ha : a.1 = id
    · simp [ha]
    · simp only [tblLookup, ha, if_neg, if_false] at h
      simp [ih h]

/-- With unique keys, a lookup that succeeds in a filtered table returns
the same record as in the unfiltered table. -/
theorem tblLookup_filter_of_nodup (t : List (String × ProcRecord))
    (pred : String × ProcRecord → Bool) (id : String) (v : ProcRecord)
    (hnd : (t.map Prod.fst).Nodup) (h : tblLookup (t.filter pred) id = some v) :
    tblLookup t id = some v := by
  induction t with
  | nil => simp [List.filter_nil, tblLookup] at h
  | cons a rest ih =>
    rw [List.map_cons, List.nodup_cons] at hnd
    by_cases hp : pred a
    · rw [List.filter_cons_of_pos hp] at h
      by_cases ha : a.1 = id
      · simp only [tblLookup, ha, if_pos rfl] at h ⊢
        exact h
      · simp only [tblLookup, ha, if_neg, if_false] at h ⊢
        exact ih hnd.2 h
    · rw [List.filter_cons_of_neg hp] at h
      have hrest := ih hnd.2 h
      by_cases ha : a.1 = id
      · exact absurd (ha ▸ tblLookup_mem_keys rest id v hrest) hnd.1
      · simp only [tblLookup, ha, if_neg, if_false]
        exact hrest

/-- With unique keys, two entries of the table carrying the same key are
the same entry. -/
theorem keyInj (t : List (String × ProcRecord)) (hnd : (t.map Prod.fst).Nodup)
    (p q : String × ProcRecord) (hp : p ∈ t) (hq : q ∈ t) (hk : p.1 = q.1) : p = q := by
  induction t with
  | nil => simp at hp
  | cons a rest ih =>
    rw [List.map_cons, List.nodup_cons] at hnd
    rcases List.mem_cons.mp hp with hpa | hpr
    · rcases List.mem_cons.mp hq with hqa | hqr
      · rw [hpa, hqa]
      · exfalso
        apply hnd.1
        have hm : q.1 ∈ List.map Prod.fst rest := List.mem_map_of_mem Prod.fst hqr
        rw [← hk, hpa] at hm
        exact hm
    · rcases List.mem_cons.mp hq with hqa | hqr
      · exfalso
        apply hnd.1
        have hm : p.1 ∈ List.map Prod.fst rest := List.mem_map_of_mem Prod.fst hpr
        rw [hk, hqa] at hm
        exact hm
      · exact ih hnd.2 hpr hqr

/-- Folding key deletion over a list of keys filters out exactly the
entries whose key is among the deleted ones. -/
theorem foldl_delKey_eq_filter (ks : List String) (l : List (String × ProcRecord)) :
    List.foldl (fun acc k => delKey acc k) l ks =
      l.filter (fun p => decide (p.1 ∉ ks)) := by
  induction ks generalizing l with
  | nil => simp
  | cons k ks ih =>
    rw [List.foldl_cons, ih, delKey, List.filter_filter]
    apply List.filter_congr
    intro p _
    by_cases h1 : p.1 = k <;> by_cases h2 : p.1 ∈ ks <;> simp [h1, h2]

/-- The count returned by cleanup_finished is the number of records
whose process is observed exited. -/
theorem cleanup_finished_fst (w : World) (st : MState) :
    (cleanup_finished w st).1 =
      (st.processes.filter (fun p => (w.poll p.2.pid).isSome)).length := by
  simp [cleanup_finished]

/-- With unique keys, the table left by cleanup_finished consists of
exactly the records whose process is not observed exited. -/
theorem cleanup_finished_processes (w : World) (st : MState)
    (hnd : (st.processes.map Prod.fst).Nodup) :
    (cleanup_finished w st).2.processes =
      st.processes.filter (fun p => (w.poll p.2.pid).isNone) := by
  show List.foldl (fun acc k => delKey acc k) st.processes
      ((st.processes.filter (fun p => (w.poll p.2.pid).isSome)).map Prod.fst) =
    st.processes.filter (fun p => (w.poll p.2.pid).isNone)
  rw [foldl_delKey_eq_filter]
  apply List.filter_congr
  intro p hp
  by_cases hs : (w.poll p.2.pid).isSome
  · have hmem : p.1 ∈ (st.processes.filter (fun q => (w.poll q.2.pid).isSome)).map Prod.fst :=
      List.mem_map_of_mem Prod.fst (List.mem_filter.mpr ⟨hp, hs⟩)
    obtain ⟨c, hc⟩ := Option.isSome_iff_exists.mp hs
    simp [hmem, hc]
  · have hnmem : p.1 ∉ (st.processes.filter (fun q => (w.poll q.2.pid).isSome)).map Prod.fst := by
      intro hmem
      rcases List.mem_map.mp hmem with ⟨q, hq, hqk⟩
      rcases List.mem_filter.mp hq with ⟨hql, hqs⟩
      have : p = q := keyInj st.processes hnd p q hp hql hqk.symm
      exact hs (this ▸ hqs)
    have hnone : w.poll p.2.pid = none := Option.not_isSome_iff_eq_none.mp hs
    simp [hnmem, hnone]

/-- The state component returned by get_process_status is the input
state: the method only reads the table and mutates copies. -/
theorem get_process_status_snd (w : World) (st : MState) (procId : Option String) :
    (get_process_status w st procId).2 = st := rfl

/-- Fixture: a world where no process has exited and every OS call
succeeds. -/
def w_alive : World :=
  { poll := fun _ => none, spawn := Except.ok 42, sigOutcome := StopOutcome.ok, now := "t0" }

/-- Fixture: a world where every process has exited with code 0. -/
def w_exited : World :=
  { poll := fun _ => some 0, spawn := Except.ok 42, sigOutcome := StopOutcome.ok, now := "t0" }

/-- Fixture: a world where signaling the process group raises an OS
error that is not ProcessLookupError (for example PermissionError). -/
def w_sigerr : World :=
  { poll := fun _ => none, spawn := Except.ok 42, sigOutcome := StopOutcome.otherError,
    now := "t0" }

/-- Fixture: a world where the process with pid 7 has exited with code 0
and every other process is alive. -/
def w_mix : World :=
  { poll := fun n => if n = 7 then some 0 else none, spawn := Except.ok 42,
    sigOutcome := StopOutcome.ok, now := "t0" }

/-- Fixture: a record for a running process with pid 7. -/
def rec_p : ProcRecord :=
  { pid := 7, command := "sleep 100", startedAt := "t0", logFile := "/logs/p.log",
    workingDir := none, status := PStatus.running }

/-- Fixture: a record for a running process with pid 8. -/
def rec_q : ProcRecord :=
  { pid := 8, command := "sleep 200", startedAt := "t0", logFile := "/logs/q.log",
    workingDir := none, status := PStatus.running }

/-- Fixture: a manager tracking the single process "p". -/
def st_p : MState := { processes := [("p", rec_p)], nextId := 2, logDir := "/logs" }

/-- Fixture: a manager tracking "p" (pid 7) and "q" (pid 8). -/
def st_pq : MState :=
  { processes := [("p", rec_p), ("q", rec_q)], nextId := 3, logDir := "/logs" }

/-- Fixture: a manager tracking nothing. -/
def st_empty : MState := { processes := [], nextId := 1, logDir := "/logs" }

/-- C1 counterexample.  The claim says Status on an id whose process has
exited mutates the stored record in place to status finished with the
exit code.  In the code the refresh happens on a `.copy()` of the stored
dict, so: with process "p" exited (poll gives code 0), the returned view
does say finished with exit code 0, but the state is returned unchanged
and the stored record still has status running and carries no exit
code. -/
theorem C1_counterexample :
    w_exited.poll rec_p.pid = some 0 ∧
    (get_process_status w_exited st_p (some "p")).1 =
      [("p", { command := "sleep 100", startedAt := "t0", logFile := "/logs/p.log",
               workingDir := none, status := PStatus.finished, exitCode := some 0 })] ∧
    (get_process_status w_exited st_p (some "p")).2 = st_p ∧
    tblLookup (get_process_status w_exited st_p (some "p")).2.processes "p" = some rec_p ∧
    rec_p.status = PStatus.running := by
  refine ⟨rfl, by decide, rfl, by decide, rfl⟩

/-- C1 amended: Status on an id whose process has exited returns a view
with status finished and the exit code, but leaves the manager state
(and thus the stored record) unchanged; Status on an unknown id returns
an empty result and also leaves the state unchanged. -/
theorem C1_status_amended (w : World) (st : MState) (id : String) (hid : id ≠ "") :
    (tblLookup st.processes id = none →
      get_process_status w st (some id) = ([], st)) ∧
    (∀ r code, tblLookup st.processes id = some r → w.poll r.pid = some code →
      get_process_status w st (some id) =
        ([(id, { command := r.command, startedAt := r.startedAt, logFile := r.logFile,
                 workingDir := r.workingDir, status := PStatus.finished,
                 exitCode := some code })], st)) := by
  constructor
  · intro h
    simp [get_process_status, hid, h]
  · intro r code hr hc
    simp [get_process_status, hid, hr, recordView, hc]

/-- Witness for C1_status_amended at the concrete exited process "p". -/
theorem C1_status_amended_witness :
    get_process_status w_exited st_p (some "p") =
      ([("p", { command := "sleep 100", startedAt := "t0", logFile := "/logs/p.log",
                workingDir := none, status := PStatus.finished, exitCode := some 0 })],
       st_p) :=
  (C1_status_amended w_exited st_p "p" (by decide)).2 rec_p 0 (by decide) rfl

/-- C4: a Start whose id (explicit or generated, by the truthiness rule
of the source) collides with any record currently in the table fails
with the duplicate-id ValueError, registers no record, touches no file
and spawns nothing — regardless of whether the colliding record is alive
or already finished, since the membership test never consults the
process. -/
theorem C4_duplicate_id (w : World) (st : MState) (fs : List (String × String))
    (cmd : String) (name : Option String) (wd : Option String)
    (h : tblMember st.processes (genProcId name st.nextId) = true) :
    start_process w st fs cmd name wd =
      (Except.error ("Process '" ++ genProcId name st.nextId ++ "' already exists"),
       { st with nextId := st.nextId + 1 }, fs, none) := by
  have h1 : tblMember ({ st with nextId := st.nextId + 1 } : MState).processes
      (genProcId name st.nextId) = true := h
  simp [start_process, h1]

/-- Witness for C4_duplicate_id: starting a process named "p" while "p"
is tracked. -/
theorem C4_duplicate_id_witness :
    start_process w_alive st_p [] "sleep 5" (some "p") none =
      (Except.error "Process 'p' already exists",
       { st_p with nextId := st_p.nextId + 1 }, [], none) :=
  C4_duplicate_id w_alive st_p [] "sleep 5" (some "p") none (by decide)

/-- C9: Stop can return false although the id is tracked: if the process
is still alive (poll gives none) and the signaling try-block raises an
exception other than ProcessLookupError, stop_process returns False and
leaves the state unchanged; so a false result does not imply an unknown
id. -/
theorem C9_stop_false_known_id (w : World) (st : MState) (id : String) (force : Bool)
    (r : ProcRecord) (h1 : tblLookup st.processes id = some r)
    (h2 : w.poll r.pid = none) (h3 : w.sigOutcome = StopOutcome.otherError) :
    stop_process w st id force = (false, st) := by
  simp [stop_process, h1, h2, h3]

/-- Witness for C9_stop_false_known_id: "p" is tracked and alive, the
signal raises a non-lookup OS error, Stop returns false. -/
theorem C9_stop_false_known_id_witness :
    stop_process w_sigerr st_p "p" false = (false, st_p) :=
  C9_stop_false_known_id w_sigerr st_p "p" false rec_p (by decide) rfl rfl

/-- C2 counterexample.  The claim says a record that reached status
stopped never changes again.  In the code a first graceful Stop on the
live process "p" sets its status to stopped; after the process then
exits, a second Stop takes the poll-is-not-None branch and sets the
status to finished: the record transitions stopped to finished. -/
theorem C2_counterexample :
    (tblLookup (stop_process w_alive st_p "p" false).2.processes "p").map
        ProcRecord.status = some PStatus.stopped ∧
    (tblLookup (stop_process w_exited
        (stop_process w_alive st_p "p" false).2 "p" false).2.processes "p").map
        ProcRecord.status = some PStatus.finished := by
  refine ⟨by decide, by decide⟩

/-- Case description of the state left by start_process: either the
table is unchanged (duplicate id or spawn failure), or exactly the new
running record was appended. -/
theorem start_process_snd (w : World) (st : MState) (fs : List (String × String))
    (c : String) (n : Option String) (wd : Option String) :
    (start_process w st fs c n wd).2.1.processes = st.processes ∨
    ∃ pid, (start_process w st fs c n wd).2.1.processes =
      st.processes ++ [(genProcId n st.nextId,
        { pid := pid, command := c, startedAt := w.now,
          logFile := st.logDir ++ "/" ++ genProcId n st.nextId ++ ".log",
          workingDir := wd, status := PStatus.running })] := by
  by_cases h : tblMember st.processes (genProcId n st.nextId)
  · left
    simp [start_process, h]
  · cases hsp : w.spawn with
    | error e =>
      left
      simp [start_process, h, hsp]
    | ok pid =>
      right
      exact ⟨pid, by simp [start_process, h, hsp]⟩

/-- Case description of the state left by stop_process: unchanged, the
target set to finished, or — only when the target was looked up and its
poll() returned None — the target set to stopped. -/
theorem stop_process_snd (w : World) (st : MState) (p : String) (f : Bool) :
    (stop_process w st p f).2 = st ∨
    (stop_process w st p f).2 = setStatus st p PStatus.finished ∨
    (∃ q, tblLookup st.processes p = some q ∧ (w.poll q.pid).isSome = false ∧
      (stop_process w st p f).2 = setStatus st p PStatus.stopped) := by
  cases hq : tblLookup st.processes p with
  | none =>
    left
    simp [stop_process, hq]
  | some q =>
    by_cases hpoll : (w.poll q.pid).isSome
    · right; left
      simp [stop_process, hq, hpoll]
    · cases hsig : w.sigOutcome with
      | ok =>
        right; right
        exact ⟨q, rfl, by simpa using hpoll, by simp [stop_process, hq, hpoll, hsig]⟩
      | lookupError =>
        right; left
        simp [stop_process, hq, hpoll, hsig]
      | otherError =>
        left
        simp [stop_process, hq, hpoll, hsig]

/-- Every status has rank at most the rank of finished. -/
theorem statusRank_le_two (s : PStatus) : statusRank s ≤ 2 := by
  cases s <;> simp [statusRank]

/-- C2 amended: across any single table operation, the status of a
record present before and after moves only forward along the order
running, stopped, finished: running may become stopped or finished, a
stopped record may still become finished (a later Stop that observes the
exit does exactly that), and a finished record stays finished — the last
part under the consistency hypothesis, maintained by the code, that a
record marked finished has an exited process.  Keys are unique in every
reachable table, hence the Nodup hypothesis. -/
theorem C2_status_forward (w : World) (st : MState) (fs : List (String × String))
    (op : Op) (id : String) (r r2 : ProcRecord)
    (hnd : (st.processes.map Prod.fst).Nodup)
    (hfin : r.status = PStatus.finished → (w.poll r.pid).isSome)
    (h1 : tblLookup st.processes id = some r)
    (h2 : tblLookup (applyOp w st fs op).1.processes id = some r2) :
    statusRank r.status ≤ statusRank r2.status := by
  have hsame : ∀ (hx : tblLookup st.processes id = some r2),
      statusRank r.status ≤ statusRank r2.status := by
    intro hx
    rw [Option.some.inj (hx.symm.trans h1)]
  cases op with
  | startOp c n wd =>
    rcases start_process_snd w st fs c n wd with hcase | ⟨pid, hcase⟩
    · rw [show (applyOp w st fs (Op.startOp c n wd)).1.processes =
          (start_process w st fs c n wd).2.1.processes from rfl, hcase] at h2
      exact hsame h2
    · rw [show (applyOp w st fs (Op.startOp c n wd)).1.processes =
          (start_process w st fs c n wd).2.1.processes from rfl, hcase,
        tblLookup_append_of_some st.processes _ id r h1] at h2
      rw [Option.some.inj h2.symm]
  | stopOp p f =>
    have happ : (applyOp w st fs (Op.stopOp p f)).1 = (stop_process w st p f).2 := rfl
    rcases stop_process_snd w st p f with hcase | hcase | ⟨q, hq, hqa, hcase⟩
    · rw [happ, hcase] at h2
      exact hsame h2
    · rw [happ, hcase] at h2
      rw [show (setStatus st p PStatus.finished).processes =
          tblUpdate st.processes p (fun x => { x with status := PStatus.finished }) from rfl,
        tblLookup_tblUpdate] at h2
      by_cases hip : id = p
      · rw [if_pos hip, h1] at h2
        rw [← Option.some.inj h2]
        exact statusRank_le_two r.status
      · rw [if_neg hip] at h2
        exact hsame h2
    · rw [happ, hcase] at h2
      rw [show (setStatus st p PStatus.stopped).processes =
          tblUpdate st.processes p (fun x => { x with status := PStatus.stopped }) from rfl,
        tblLookup_tblUpdate] at h2
      by_cases hip : id = p
      · rw [if_pos hip, h1] at h2
        rw [← Option.some.inj h2]
        have hqr : q = r := by
          rw [hip] at h1
          exact Option.some.inj (hq.symm.trans h1)
        cases hs : r.status with
        | running => simp [statusRank]
        | stopped => simp [statusRank]
        | finished =>
          exfalso
          rw [hqr] at hqa
          rw [hfin hs] at hqa
          exact Bool.noConfusion hqa
      · rw [if_neg hip] at h2
        exact hsame h2
  | statusOp p =>
    rw [show (applyOp w st fs (Op.statusOp p)).1 = st from rfl] at h2
    exact hsame h2
  | logOp p l =>
    rw [show (applyOp w st fs (Op.logOp p l)).1 = st from rfl] at h2
    exact hsame h2
  | cleanupOp =>
    rw [show (applyOp w st fs Op.cleanupOp).1 = (cleanup_finished w st).2 from rfl,
      cleanup_finished_processes w st hnd] at h2
    exact hsame (tblLookup_filter_of_nodup st.processes _ id r2 hnd h2)

/-- Witness for C2_status_forward: a Stop on the tracked live process
"p" moves its status from running (rank 0) to stopped (rank 1). -/
theorem C2_status_forward_witness :
    statusRank rec_p.status ≤
      statusRank ({ rec_p with status := PStatus.stopped } : ProcRecord).status :=
  C2_status_forward w_alive st_p [] (Op.stopOp "p" false) "p" rec_p
    { rec_p with status := PStatus.stopped } (by decide) (by decide) (by decide) (by decide)

/-- C5: Cleanup removes exactly the records whose process is observed
exited at call time, leaving every other record untouched (in order),
returns the number removed, and — when no further process exits, that
is, against the same world — a second consecutive Cleanup removes zero.
Keys are unique in every reachable table, hence the Nodup hypothesis. -/
theorem C5_cleanup_exact (w : World) (st : MState)
    (hnd : (st.processes.map Prod.fst).Nodup) :
    (cleanup_finished w st).2.processes =
      st.processes.filter (fun p => (w.poll p.2.pid).isNone) ∧
    (cleanup_finished w st).1 =
      (st.processes.filter (fun p => (w.poll p.2.pid).isSome)).length ∧
    (cleanup_finished w (cleanup_finished w st).2).1 = 0 := by
  refine ⟨cleanup_finished_processes w st hnd, cleanup_finished_fst w st, ?_⟩
  rw [cleanup_finished_fst, cleanup_finished_processes w st hnd, List.filter_filter]
  rw [List.length_eq_zero, List.filter_eq_nil_iff]
  intro p _
  cases w.poll p.2.pid <;> simp

/-- Witness for C5_cleanup_exact: "p" (pid 7) has exited, "q" (pid 8) is
alive; Cleanup removes exactly "p", reports one removal, and a second
Cleanup removes zero. -/
theorem C5_cleanup_exact_witness :
    (cleanup_finished w_mix st_pq).2.processes =
      st_pq.processes.filter (fun p => (w_mix.poll p.2.pid).isNone) ∧
    (cleanup_finished w_mix st_pq).1 =
      (st_pq.processes.filter (fun p => (w_mix.poll p.2.pid).isSome)).length ∧
    (cleanup_finished w_mix (cleanup_finished w_mix st_pq).2).1 = 0 :=
  C5_cleanup_exact w_mix st_pq (by decide)

/-- C6 counterexample.  Process "p" has log file content "a \n" (the
letter a, one trailing space, a newline).  The claim says Log removes
only the trailing line terminator, so Log(p, 1) should be the line
"a " with the space kept; the code rstrips all trailing whitespace and
returns "a".  The claim also says at most N lines are returned for every
requested count N; with N = 0 the slice all_lines[-0:] is the whole
file, so Log(p, 0) returns one line, not zero. -/
theorem C6_counterexample :
    get_process_log st_p [("/logs/p.log", "a \n")] "p" 1 = ["a"] ∧
    ("a" : String) ≠ "a " ∧
    get_process_log st_p [("/logs/p.log", "a \n")] "p" 0 = ["a"] := by
  refine ⟨by decide, by decide, by decide⟩

/-- C6 amended: for a requested count N of at least one, Log returns the
last min(N, number of lines) lines of the file in file order — a suffix
of the full line list — each line processed by rstrip, which removes all
trailing whitespace (spaces and tabs as well as the line terminator); a
count of zero returns every line of the file; an unknown id or a missing
file yields the empty sequence. -/
theorem C6_log_amended (st : MState) (fs : List (String × String)) (id : String)
    (n : Nat) :
    (tblLookup st.processes id = none → get_process_log st fs id n = []) ∧
    (∀ r, tblLookup st.processes id = some r → fsRead fs r.logFile = none →
      get_process_log st fs id n = []) ∧
    (∀ r content, tblLookup st.processes id = some r →
      fsRead fs r.logFile = some content → 1 ≤ n →
      (get_process_log st fs id n).length =
        min n ((readlines content).map pyRstrip).length ∧
      (get_process_log st fs id n) <:+ (readlines content).map pyRstrip) ∧
    (∀ r content, tblLookup st.processes id = some r →
      fsRead fs r.logFile = some content →
      get_process_log st fs id 0 = (readlines content).map pyRstrip) := by
  refine ⟨fun h => by simp [get_process_log, h], fun r hr hc => by simp [get_process_log, hr, hc],
    fun r content hr hc hn => ?_, fun r content hr hc => by simp [get_process_log, hr, hc, pyTail]⟩
  have hne : ¬ n = 0 := by omega
  have hlog : get_process_log st fs id n =
      ((readlines content).drop ((readlines content).length - n)).map pyRstrip := by
    simp [get_process_log, hr, hc, pyTail, hne]
  constructor
  · rw [hlog, List.length_map, List.length_drop, List.length_map]
    omega
  · rw [hlog]
    exact List.IsSuffix.map pyRstrip (List.drop_suffix _ _)

/-- Witness for C6_log_amended: a three-line file queried with N = 2
returns the last two lines, rstripped. -/
theorem C6_log_amended_witness :
    (get_process_log st_p [("/logs/p.log", "x\ny\nz\n")] "p" 2).length =
      min 2 ((readlines "x\ny\nz\n").map pyRstrip).length ∧
    (get_process_log st_p [("/logs/p.log", "x\ny\nz\n")] "p" 2) <:+
      (readlines "x\ny\nz\n").map pyRstrip :=
  (C6_log_amended st_p [("/logs/p.log", "x\ny\nz\n")] "p" 2).2.2.1 rec_p "x\ny\nz\n"
    (by decide) (by decide) (by decide)

/-- Fixture: a stop request for the untracked id "ghost". -/
def req_stop_unknown : Request :=
  { action := some "stop", command := none, name := none, workingDir := none,
    processId := some "ghost", force := none, lines := none }

/-- C3 counterexample.  The claim says every answered response is either
success:true plus results or an error object, the stop outcome being
delivered inside success:true.  A stop request for an unknown id makes
stop_process return False and _process_request answers with the object
whose success field is False and which has no error field — neither of
the two claimed shapes. -/
theorem C3_counterexample :
    (process_request w_alive st_empty [] req_stop_unknown).1.success = some false ∧
    (process_request w_alive st_empty [] req_stop_unknown).1.error = none := by
  refine ⟨by decide, by decide⟩

/-- C3 amended: every response carries exactly one of the success field
or the error field, and a success field holding false occurs only for
the stop action, where the success field itself is the boolean outcome
of stop_process; every other action answers success:true or an error. -/
theorem C3_response_shape (w : World) (st : MState) (fs : List (String × String))
    (req : Request) :
    (((process_request w st fs req).1.success.isSome ∧
        (process_request w st fs req).1.error = none) ∨
      ((process_request w st fs req).1.error.isSome ∧
        (process_request w st fs req).1.success = none)) ∧
    ((process_request w st fs req).1.success = some false →
      req.action = some "stop" ∧
      (process_request w st fs req).1.success =
        some (stop_process w st (req.processId.getD "") (req.force.getD false)).1) := by
  unfold process_request
  by_cases h1 : req.action = some "start"
  · rw [if_pos h1]
    by_cases hc : truthyS req.command = false
    · rw [if_pos hc]
      exact ⟨Or.inr ⟨rfl, rfl⟩, fun h => Option.noConfusion h⟩
    · rw [if_neg hc]
      rcases hsp : start_process w st fs (req.command.getD "") req.name req.workingDir with
        ⟨res, st2, fs2, call⟩
      cases res with
      | ok procId => exact ⟨Or.inl ⟨rfl, rfl⟩, fun h => absurd (Option.some.inj h) (by simp)⟩
      | error e => exact ⟨Or.inr ⟨rfl, rfl⟩, fun h => Option.noConfusion h⟩
  · rw [if_neg h1]
    by_cases h2 : req.action = some "stop"
    · rw [if_pos h2]
      by_cases hp : truthyS req.processId = false
      · rw [if_pos hp]
        exact ⟨Or.inr ⟨rfl, rfl⟩, fun h => Option.noConfusion h⟩
      · rw [if_neg hp]
        exact ⟨Or.inl ⟨rfl, rfl⟩, fun _ => ⟨h2, rfl⟩⟩
    · rw [if_neg h2]
      by_cases h3 : req.action = some "status"
      · rw [if_pos h3]
        exact ⟨Or.inl ⟨rfl, rfl⟩, fun h => absurd (Option.some.inj h) (by simp)⟩
      · rw [if_neg h3]
        by_cases h4 : req.action = some "log"
        · rw [if_pos h4]
          by_cases hp : truthyS req.processId = false
          · rw [if_pos hp]
            exact ⟨Or.inr ⟨rfl, rfl⟩, fun h => Option.noConfusion h⟩
          · rw [if_neg hp]
            exact ⟨Or.inl ⟨rfl, rfl⟩, fun h => absurd (Option.some.inj h) (by simp)⟩
        · rw [if_neg h4]
          by_cases h5 : req.action = some "cleanup"
          · rw [if_pos h5]
            exact ⟨Or.inl ⟨rfl, rfl⟩, fun h => absurd (Option.some.inj h) (by simp)⟩
          · rw [if_neg h5]
            by_cases h6 : req.action = some "ping"
            · rw [if_pos h6]
              exact ⟨Or.inl ⟨rfl, rfl⟩, fun h => absurd (Option.some.inj h) (by simp)⟩
            · rw [if_neg h6]
              exact ⟨Or.inr ⟨rfl, rfl⟩, fun h => Option.noConfusion h⟩

/-- Witness for C3_response_shape: the stop request for an unknown id
answers with success false and that boolean is the stop_process
outcome. -/
theorem C3_response_shape_witness :
    req_stop_unknown.action = some "stop" ∧
    (process_request w_alive st_empty [] req_stop_unknown).1.success =
      some (stop_process w_alive st_empty
        (req_stop_unknown.processId.getD "") (req_stop_unknown.force.getD false)).1 :=
  (C3_response_shape w_alive st_empty [] req_stop_unknown).2 (by decide)

/-- C7 counterexample.  The claim says the log file is opened in append
mode and pre-existing content survives.  Starting a fresh process "x"
while the filesystem already holds "/logs/x.log" with content "old"
leaves the file holding the empty string: open(log_file, 'w') truncated
it. -/
theorem C7_counterexample :
    fsRead (start_process w_alive st_empty [("/logs/x.log", "old")]
      "cmd" (some "x") none).2.2.1 "/logs/x.log" = some "" ∧
    some ("" : String) ≠ some "old" := by
  refine ⟨by decide, by decide⟩

/-- Lookup after a whole-file write: the written path now maps to the
written content. -/
theorem fsRead_fsWrite (fs : List (String × String)) (k v : String) :
    fsRead (fsWrite fs k v) k = some v := by
  unfold fsWrite
  by_cases h : (fsRead fs k).isSome
  · rw [if_pos h]
    induction fs with
    | nil => simp [fsRead] at h
    | cons a rest ih =>
      by_cases ha : a.1 = k
      · simp [fsRead, ha]
      · simp only [fsRead, ha, if_neg, if_false, List.map_cons] at h ⊢
        exact ih h
  · rw [if_neg h]
    induction fs with
    | nil => simp [fsRead]
    | cons a rest ih =>
      by_cases ha : a.1 = k
      · rw [fsRead, if_pos ha] at h
        simp at h
      · rw [fsRead, if_neg ha] at h
        simpa [fsRead, ha] using ih h

/-- C7 amended: on a Start whose id is fresh, the log file named after
the id (logDir/id.log) is written before the child is spawned — after
the call it holds the empty string whether or not the spawn succeeded,
so any pre-existing content is truncated: the mode is write, not
append — and the Popen call that is made redirects the child's stdout
to that file with stderr merged into stdout, in a new session. -/
theorem C7_log_file (w : World) (st : MState) (fs : List (String × String))
    (cmd : String) (name : Option String) (wd : Option String)
    (h : tblMember st.processes (genProcId name st.nextId) = false) :
    fsRead (start_process w st fs cmd name wd).2.2.1
      (st.logDir ++ "/" ++ genProcId name st.nextId ++ ".log") = some "" ∧
    (start_process w st fs cmd name wd).2.2.2 =
      some { command := cmd,
             stdoutFile := st.logDir ++ "/" ++ genProcId name st.nextId ++ ".log",
             stderrToStdout := true, cwd := wd, startNewSession := true } := by
  have hm : ¬ tblMember st.processes (genProcId name st.nextId) = true := by
    rw [h]; exact Bool.noConfusion
  cases hsp : w.spawn with
  | error e =>
    constructor
    · rw [show (start_process w st fs cmd name wd).2.2.1 =
          fsWrite fs (st.logDir ++ "/" ++ genProcId name st.nextId ++ ".log") "" from by
        simp [start_process, hm, hsp]]
      exact fsRead_fsWrite fs _ ""
    · simp [start_process, hm, hsp]
  | ok pid =>
    constructor
    · rw [show (start_process w st fs cmd name wd).2.2.1 =
          fsWrite fs (st.logDir ++ "/" ++ genProcId name st.nextId ++ ".log") "" from by
        simp [start_process, hm, hsp]]
      exact fsRead_fsWrite fs _ ""
    · simp [start_process, hm, hsp]

/-- Witness for C7_log_file: starting "x" on the filesystem that already
holds old content for its log path. -/
theorem C7_log_file_witness :
    fsRead (start_process w_alive st_empty [("/logs/x.log", "old")]
      "cmd" (some "x") none).2.2.1 "/logs/x.log" = some "" ∧
    (start_process w_alive st_empty [("/logs/x.log", "old")]
      "cmd" (some "x") none).2.2.2 =
      some { command := "cmd", stdoutFile := "/logs/x.log", stderrToStdout := true,
             cwd := none, startNewSession := true } :=
  C7_log_file w_alive st_empty [("/logs/x.log", "old")] "cmd" (some "x") none (by decide)

/-- C8 counterexample.  The claim says an unreachable socket — a stale
socket file whose connection is refused included — is reported as the
domain error "Daemon not running".  A refused connection raises
ConnectionRefusedError, which the code catches in the generic handler,
so the client surfaces the raw OS error string instead. -/
theorem C8_counterexample :
    sendRequest (ConnAttempt.excConnRefused "[Errno 111] Connection refused") =
      ClientResult.errorResp "[Errno 111] Connection refused" ∧
    ClientResult.errorResp "[Errno 111] Connection refused" ≠
      ClientResult.errorResp "Daemon not running" := by
  refine ⟨rfl, by decide⟩

/-- C8 amended: only a missing socket path (FileNotFoundError on
connect) is mapped to the distinct domain error "Daemon not running";
a stale socket whose connection is refused, like any other exception,
surfaces the raw error string. -/
theorem C8_client_errors (m : String) :
    sendRequest (ConnAttempt.excFileNotFound m) =
      ClientResult.errorResp "Daemon not running" ∧
    sendRequest (ConnAttempt.excConnRefused m) = ClientResult.errorResp m ∧
    sendRequest (ConnAttempt.excOtherExc m) = ClientResult.errorResp m :=
  ⟨rfl, rfl, rfl⟩

/-- C10 counterexample.  The claim says the lock is held only for table
accesses, with spawning done with minimal time under the lock, and that
a graceful Stop's wait blocks no other connection's operations.  In the
traces of the source, the Popen call sits between the lock acquire and
release of start_process, and the five-second grace wait sits between
the lock acquire and release of the graceful stop_process branch — both
are non-table work performed while holding the one table lock, so a
graceful Stop makes every concurrent table operation wait. -/
theorem C10_counterexample :
    Ev.spawnChild ∈ underLock startProcessTrace ∧
    Ev.spawnChild ≠ Ev.tableAccess ∧
    Ev.graceWait ∈ underLock (stopProcessTrace false false false) ∧
    Ev.graceWait ≠ Ev.tableAccess := by
  refine ⟨by decide, by decide, by decide, by decide⟩

/-- C10 amended: start_process and stop_process hold the table lock for
their entire bodies — each trace is exactly the acquire, the events
under the lock, then the release — so the spawn and the grace-period
wait happen under the lock and a graceful Stop delays every concurrent
table operation; only the accept loop, with its thread per connection,
is not blocked. -/
theorem C10_lock_extent :
    startProcessTrace = Ev.lockAcquire :: (underLock startProcessTrace ++ [Ev.lockRelease]) ∧
    Ev.spawnChild ∈ underLock startProcessTrace ∧
    (∀ force exited timedOut : Bool,
      stopProcessTrace force exited timedOut =
        Ev.lockAcquire ::
          (underLock (stopProcessTrace force exited timedOut) ++ [Ev.lockRelease])) ∧
    (∀ timedOut : Bool, Ev.graceWait ∈ underLock (stopProcessTrace false false timedOut)) := by
  refine ⟨by decide, by decide, by decide, by decide⟩

end DaemonTool
